import Mathlib

/-!
Verification development for the AMISR-to-Madrigal conversion module
(madrigal3_amisr.py).  The definitions below are a shallow embedding of the
record-construction and validity-filtering engine: floating point data is
modelled by rationals together with an explicit NaN constructor, mirroring
IEEE comparison semantics (every comparison with NaN is false), and each
handler's record builder is translated function-by-function from the source.
-/

set_option maxRecDepth 4000

/- Rat.mul and Rat.inv are irreducible by default, which would block the
kernel evaluation of concrete record computations; make them reducible
for this development. -/
attribute [local semireducible] Rat.mul Rat.inv

/-- Equality of Except results is decidable (needed to evaluate the
conversion pipeline on concrete inputs). -/
instance {ε α : Type} [DecidableEq ε] [DecidableEq α] : DecidableEq (Except ε α) :=
  fun a b =>
    match a, b with
    | .ok x, .ok y =>
      if h : x = y then .isTrue (by rw [h]) else .isFalse (by intro hc; cases hc; exact h rfl)
    | .error x, .error y =>
      if h : x = y then .isTrue (by rw [h]) else .isFalse (by intro hc; cases hc; exact h rfl)
    | .ok _, .error _ => .isFalse (by intro hc; cases hc)
    | .error _, .ok _ => .isFalse (by intro hc; cases hc)

/-- A floating-point scalar from the source arrays: either NaN or a number
(modelled as a rational; all thresholds in the source are exactly
representable and no transcendental arithmetic is needed by the gates). -/
inductive FVal where
  | nan : FVal
  | num (q : ℚ) : FVal
deriving DecidableEq, Repr

namespace FVal

/-- np.isnan -/
def isnan : FVal → Bool
  | nan => true
  | num _ => false

/-- IEEE `<`: any comparison with NaN is false. -/
def flt : FVal → FVal → Bool
  | num a, num b => a < b
  | _, _ => false

/-- IEEE `<=`: any comparison with NaN is false. -/
def fle : FVal → FVal → Bool
  | num a, num b => a ≤ b
  | _, _ => false

/-- IEEE `>` -/
def fgt : FVal → FVal → Bool
  | num a, num b => b < a
  | _, _ => false

/-- IEEE `>=` -/
def fge : FVal → FVal → Bool
  | num a, num b => b ≤ a
  | _, _ => false

/-- np.abs / Python abs (NaN maps to NaN) -/
def fabs : FVal → FVal
  | nan => nan
  | num q => num |q|

/-- np.maximum: propagates NaN, otherwise the larger value. -/
def fmax : FVal → FVal → FVal
  | nan, _ => nan
  | _, nan => nan
  | num a, num b => num (max a b)

end FVal

/-- One cell of a Madrigal data record 2D (or 1D) field: either a numeric
value, the special error marker assumed (used only for dpo+), or the
missing marker. -/
inductive Cell where
  | value (q : ℚ) : Cell
  | missing : Cell
  | assumed : Cell
deriving DecidableEq, Repr

/-- Helper: a Python-style read of a float list (out of range is modelled as
NaN; the source only indexes in range, so this total default is inert). -/
def pyGetF (xs : List FVal) (i : ℕ) : FVal := xs.getD i FVal.nan

/- Parameter boundaries of hdf5ToMadrigal.__init__ (madrigal3_amisr.py). -/

def minTemp : ℚ := 100
def maxTemp : ℚ := 10000
def maxTempErr : ℚ := 32765
def minTempErr : ℚ := 1
def minNe : ℚ := 10 ^ 9
def maxNe : ℚ := 10 ^ 13
def maxNeErr : ℚ := 32 * 10 ^ 12
def minNeErr : ℚ := 1
def maxVo : ℚ := 32765
def maxVoErr : ℚ := 32765
def minVoErr : ℚ := 1 / 100
def maxFract : ℚ := 1
def minFract : ℚ := 0

/-- Per-species fit values for one range gate, already indexed by the
hard-coded species/parameter indices of hdf5ToMadrigal.__init__
(o_index = 0, e_index = -1 i.e. the last species, fractIndex = 0,
tempIndex = 1, velIndex = 3).  fitsValue[rangeIndex][o_index][tempIndex]
etc. become the named components below. -/
structure GateFits where
  tiVal : FVal   -- fitsValue[i][o_index][tempIndex]
  tiErr : FVal   -- errValue[i][o_index][tempIndex]
  teVal : FVal   -- fitsValue[i][e_index][tempIndex]
  teErr : FVal   -- errValue[i][e_index][tempIndex]
  voVal : FVal   -- fitsValue[i][o_index][velIndex]
  voErr : FVal   -- errValue[i][o_index][velIndex]
  fract : FVal   -- fitsValue[i][o_index][fractIndex]
deriving DecidableEq, Repr

/-- All-NaN per-gate fit values (used as the getD default and in concrete
inputs whose fit arrays are irrelevant). -/
def nanGateFits : GateFits :=
  ⟨FVal.nan, FVal.nan, FVal.nan, FVal.nan, FVal.nan, FVal.nan, FVal.nan⟩

/-- The per-(time, beam) tuple handed to set_fitted_data_rec (the fields the
2D loop reads, plus the 1D power already divided by 1000 at extraction). -/
structure FittedInputs where
  txpower : ℚ                -- txPowerArray[recIndex] / 1000 (W to kW)
  rangeValue : List FVal
  neValue : List FVal
  dneValue : List FVal
  fits : List GateFits       -- fitsValue / errValue at the fixed indices
  chisqValue : List FVal
  snrValue : List FVal
  platValue : List FVal
  plongValue : List FVal
deriving Repr

/-- The tuple-extraction step of hdf5ToMadrigal.__init__ converts transmit
power from W to kW (txPowerArray[recIndex]/1000.0) before building the
worker input. -/
def mkFittedInputs (txPowerW : ℚ) (rangeValue neValue dneValue : List FVal)
    (fits : List GateFits) (chisqValue snrValue platValue plongValue : List FVal) :
    FittedInputs :=
  { txpower := txPowerW / 1000
    rangeValue := rangeValue
    neValue := neValue
    dneValue := dneValue
    fits := fits
    chisqValue := chisqValue
    snrValue := snrValue
    platValue := platValue
    plongValue := plongValue }

/-- The structured output record built by set_fitted_data_rec: the 1D power
field and every 2D column, one list entry per emitted row. -/
structure FittedRec where
  power : ℚ
  range : List Cell
  ne : List Cell
  dne : List Cell
  ti : List Cell
  dti : List Cell
  te : List Cell
  dte : List Cell
  vo : List Cell
  dvo : List Cell
  cgmLat : List Cell
  cgmLong : List Cell
  poPlus : List Cell     -- the po+ column
  dpoPlus : List Cell    -- the dpo+ column
  chisq : List Cell
  sn : List Cell
deriving DecidableEq, Repr

/-- The ne / dne try block of set_fitted_data_rec.  A ValueError raised at
either check lands in the except handler, which stores missing in BOTH
cells (overwriting an ne value already stored when the dne check fails). -/
def neDnePair (ne dne : FVal) : Cell × Cell :=
  if ne.flt (.num minNe) || ne.fgt (.num maxNe) || ne.isnan then
    (Cell.missing, Cell.missing)
  else if dne.fle (.num minNeErr) || dne.fgt (.num maxNeErr) || dne.isnan then
    (Cell.missing, Cell.missing)
  else
    match ne, dne with
    | .num a, .num b => (Cell.value a, Cell.value b)
    | _, _ => (Cell.missing, Cell.missing)  -- unreachable: NaN already handled

/-- A temperature try block (ti/dti and te/dte share this shape); the
except handler stores missing in both cells. -/
def tempPair (t dt : FVal) : Cell × Cell :=
  if t.flt (.num minTemp) || t.fgt (.num maxTemp) || t.isnan then
    (Cell.missing, Cell.missing)
  else if dt.flt (.num minTempErr) || dt.fgt (.num maxTempErr) || dt.isnan then
    (Cell.missing, Cell.missing)
  else
    match t, dt with
    | .num a, .num b => (Cell.value a, Cell.value b)
    | _, _ => (Cell.missing, Cell.missing)  -- unreachable: NaN already handled

/-- The vo / dvo try block: a single validity check guards both stores. -/
def voPair (v dv : FVal) : Cell × Cell :=
  if v.isnan || (v.fabs).fgt (.num maxVo) || dv.isnan
      || dv.fgt (.num maxVoErr) || dv.flt (.num minVoErr) then
    (Cell.missing, Cell.missing)
  else
    match v, dv with
    | .num a, .num b => (Cell.value a, Cell.value b)
    | _, _ => (Cell.missing, Cell.missing)  -- unreachable: NaN already handled

/-- The po+ / dpo+ try block: when the fraction is valid the error cell is
the fixed marker assumed; when invalid the except handler stores missing
in both cells. -/
def poPair (f : FVal) : Cell × Cell :=
  if f.isnan || f.fgt (.num maxFract) || f.flt (.num minFract) then
    (Cell.missing, Cell.missing)
  else
    match f with
    | .num a => (Cell.value a, Cell.assumed)
    | _ => (Cell.missing, Cell.missing)  -- unreachable: NaN already handled

/-- A plain NaN-guarded single cell (chisq, sn, cgm_lat, cgm_long). -/
def nanGuardCell (v : FVal) : Cell :=
  match v with
  | .nan => Cell.missing
  | .num q => Cell.value q

/-- valid_range_indices of set_fitted_data_rec: all gate indices whose range
value is not NaN, in ascending order. -/
def validRangeIndices (rangeValue : List FVal) : List ℕ :=
  (List.range rangeValue.length).filter (fun i => !(pyGetF rangeValue i).isnan)

/-- set_fitted_data_rec (madrigal3_amisr.py): returns none (the Python None
sentinel) when every range value is NaN, otherwise builds the record with
one row per valid range index.  Note that the range cell is stored WITHOUT
any m-to-km conversion (set2D passes rangeValue[rangeIndex] through). -/
def set_fitted_data_rec (inp : FittedInputs) : Option FittedRec :=
  let valid := validRangeIndices inp.rangeValue
  if valid.isEmpty then none
  else
    let fitsAt := fun i => inp.fits.getD i nanGateFits
    some
      { power := inp.txpower
        range := valid.map (fun i => nanGuardCell (pyGetF inp.rangeValue i))
        ne := valid.map (fun i => (neDnePair (pyGetF inp.neValue i) (pyGetF inp.dneValue i)).1)
        dne := valid.map (fun i => (neDnePair (pyGetF inp.neValue i) (pyGetF inp.dneValue i)).2)
        ti := valid.map (fun i => (tempPair (fitsAt i).tiVal (fitsAt i).tiErr).1)
        dti := valid.map (fun i => (tempPair (fitsAt i).tiVal (fitsAt i).tiErr).2)
        te := valid.map (fun i => (tempPair (fitsAt i).teVal (fitsAt i).teErr).1)
        dte := valid.map (fun i => (tempPair (fitsAt i).teVal (fitsAt i).teErr).2)
        vo := valid.map (fun i => (voPair (fitsAt i).voVal (fitsAt i).voErr).1)
        dvo := valid.map (fun i => (voPair (fitsAt i).voVal (fitsAt i).voErr).2)
        cgmLat := valid.map (fun i => nanGuardCell (pyGetF inp.platValue i))
        cgmLong := valid.map (fun i => nanGuardCell (pyGetF inp.plongValue i))
        poPlus := valid.map (fun i => (poPair (fitsAt i).fract).1)
        dpoPlus := valid.map (fun i => (poPair (fitsAt i).fract).2)
        chisq := valid.map (fun i => nanGuardCell (pyGetF inp.chisqValue i))
        sn := valid.map (fun i => nanGuardCell (pyGetF inp.snrValue i)) }

/- ------------------------------------------------------------------ -/
/- Uncorrected-density handler (hdf5UncorrectedToMadrigal)            -/
/- ------------------------------------------------------------------ -/

/-- Python exceptions raised by the conversion engine. -/
inductive PyErr where
  | ioError (msg : String) : PyErr
  | eofError : PyErr
  | nameError (msg : String) : PyErr
  | valueError (msg : String) : PyErr
deriving DecidableEq, Repr

/-- The single scan loop of hdf5UncorrectedToMadrigal.__init__ over
i in range(numRanges): the first tracker latches the first index whose
range (in km, i.e. divided by 1000) is at least lowerRange; the second
tracker latches numRanges - i at the first i (scanning from the top via
the Python index -1-i) whose range in km is strictly below upperRange.
A tracker already set, or a cutoff that is Python None, is left alone
(when the cutoff is None the tracker starts out preset, matching the
lowerRangeIndex = 0 / upperRangeIndex = numRanges initialisation). -/
def lowStep (ranges : List ℚ) (lowerRange : Option ℚ) (s : Option ℕ) (i : ℕ) :
    Option ℕ :=
  match s, lowerRange with
  | none, some lo => if lo ≤ ranges.getD i 0 / 1000 then some i else none
  | s, _ => s

def highStep (ranges : List ℚ) (upperRange : Option ℚ) (s : Option ℕ) (i : ℕ) :
    Option ℕ :=
  match s, upperRange with
  | none, some hi =>
    if ranges.getD (ranges.length - 1 - i) 0 / 1000 < hi then
      some (ranges.length - i)
    else none
  | s, _ => s

def windowScan (ranges : List ℚ) (lowerRange upperRange : Option ℚ) :
    Option ℕ × Option ℕ :=
  (List.range ranges.length).foldl
    (fun st i => (lowStep ranges lowerRange st.1 i, highStep ranges upperRange st.2 i))
    (if lowerRange.isNone then some 0 else none,
     if upperRange.isNone then some ranges.length else none)

/-- The cutoff-index computation of hdf5UncorrectedToMadrigal.__init__:
after the scan, an unset lower index raises IOError; an unset upper index
falls back to numRanges; a non-positive numUsedRanges raises IOError. -/
def computeRangeWindow (ranges : List ℚ) (lowerRange upperRange : Option ℚ) :
    Except PyErr (ℕ × ℕ) :=
  match windowScan ranges lowerRange upperRange with
  | (none, _) => .error (PyErr.ioError ("No valid ranges found between limits"))
  | (some l, u?) =>
    let u := u?.getD ranges.length
    if (u : ℤ) - (l : ℤ) ≤ 0 then
      .error (PyErr.ioError ("No valid ranges found between limits"))
    else .ok (l, u)

/-- The record built by set_uncorrected_data_rec: 1D power plus the three
2D columns (range, popl, dpopl), one row per used range gate. -/
structure UncorrRec where
  power : ℚ
  range : List Cell
  popl : List Cell
  dpopl : List Cell
deriving DecidableEq, Repr

/-- The range try block of set_uncorrected_data_rec: NaN becomes missing,
otherwise the value is stored divided by 1000 (m to km). -/
def uncorrRangeCell (r : FVal) : Cell :=
  match r with
  | .nan => Cell.missing
  | .num q => Cell.value (q / 1000)

/-- The pop try block of set_uncorrected_data_rec, parametrised by the
real function log10 (lg), which the gating never inspects: a NaN pop, or
a dpop fraction that is non-positive or NaN, lands in the except handler,
which stores missing in BOTH popl and dpopl (overwriting a popl value
already stored when only the dpop check fails). -/
def poplPair (lg : ℚ → ℚ) (pop dpop : FVal) : Cell × Cell :=
  match pop with
  | .nan => (Cell.missing, Cell.missing)
  | .num p =>
    match dpop with
    | .nan => (Cell.missing, Cell.missing)
    | .num d =>
      if d ≤ 0 then (Cell.missing, Cell.missing)
      else (Cell.value (lg p), Cell.value (lg (d * p)))

/-- set_uncorrected_data_rec (madrigal3_amisr.py): rows are the gates with
rangeIndex in [lowerRangeIndex, upperRangeIndex), stored at row
rangeIndex - lowerRangeIndex; txpower was already divided by 1000 (W to
kW) at tuple extraction. -/
def set_uncorrected_data_rec (lg : ℚ → ℚ) (txpower : ℚ)
    (lowerRangeIndex upperRangeIndex : ℕ)
    (rangeValue popValue dpopValue : List FVal) : UncorrRec :=
  let window := List.range' lowerRangeIndex (upperRangeIndex - lowerRangeIndex)
  { power := txpower
    range := window.map (fun i => uncorrRangeCell (pyGetF rangeValue i))
    popl := window.map (fun i => (poplPair lg (pyGetF popValue i) (pyGetF dpopValue i)).1)
    dpopl := window.map (fun i => (poplPair lg (pyGetF popValue i) (pyGetF dpopValue i)).2) }

/-- The per-tuple extraction of hdf5UncorrectedToMadrigal.__init__ combined
with set_uncorrected_data_rec: the window is computed from the raw range
array in meters, the transmit power is converted W to kW, and the record
is built; window computation failures propagate as the IOError raised in
__init__. -/
def uncorrectedRecord (lg : ℚ → ℚ) (txPowerW : ℚ)
    (rangesMeters : List ℚ) (lowerRange upperRange : Option ℚ)
    (popValue dpopValue : List FVal) : Except PyErr UncorrRec :=
  match computeRangeWindow rangesMeters lowerRange upperRange with
  | .error e => .error e
  | .ok (l, u) =>
    .ok (set_uncorrected_data_rec lg (txPowerW / 1000) l u
          (rangesMeters.map FVal.num) popValue dpopValue)

/- ------------------------------------------------------------------ -/
/- Resolved-velocity handler (hdf5VelocityToMadrigal)                 -/
/- ------------------------------------------------------------------ -/

/- Limits of hdf5VelocityToMadrigal.__init__. -/

def vMaxV : ℚ := 32765
def vMaxVErr : ℚ := 32765
def vMinVErr : ℚ := 1
def vMaxE : ℚ := 32765 / 100000     -- 32765.0 * 1e-5
def vMaxEErr : ℚ := 32765 / 100000
def vMinEErr : ℚ := 1 / 10000000    -- 0.01 * 1e-5
def vMaxDirErr : ℚ := 360

/-- Which of the arrays read inside try/except blocks of
hdf5VelocityToMadrigal.__init__ are present in the input file, plus the
value of ProcessingParams.GeographicBinning when readable.  The
requiredPresent flag collapses the arrays read with no try/except at all
(UnixTime, MinAlt, MaxAlt, Nmeas, IntegrationTime, and the latitude array
of the geographic-binning branch). -/
structure VelPresence where
  requiredPresent : Bool
  geoBinning : Option ℤ
  platPresent : Bool
  magLatPresent : Bool
  vestPresent : Bool
  vmagPresent : Bool
  eestPresent : Bool
  emagPresent : Bool
deriving DecidableEq, Repr

/-- The array-loading phase of hdf5VelocityToMadrigal.__init__, producing
the 2D parameter list (params) for this invocation.  Every except branch
guarding the four vector groups ends in the bare undefined name xxxxxx,
so a missing group raises NameError rather than omitting its fields;
only GeographicBinning (which falls back to 0) and, in the non-geographic
branch, Plat (which falls back to MagneticLatitude) are non-fatal. -/
def loadVelocityParams (p : VelPresence) : Except PyErr (List String) :=
  if !p.requiredPresent then .error (PyErr.ioError ("NoSuchNodeError"))
  else
    let byGeo : ℤ := p.geoBinning.getD 0
    let params0 := ["nsmpta"]
    -- bin latitude selection, fixing the first parameter block
    match (if byGeo ≠ 0 then
             .ok (params0 ++ (if byGeo = 2 then ["gdlat"] else ["cgm_lat"])
               ++ ["vi2", "dvi2", "vi1", "dvi1", "vi3", "dvi3"])
           else if p.platPresent || p.magLatPresent then
             .ok (params0 ++ ["cgm_lat", "vipn", "dvipn", "vipe", "dvipe", "vi6", "dvi6"])
           else (.error (PyErr.ioError ("NoSuchNodeError")) :
             Except PyErr (List String))) with
    | .error e => .error e
    | .ok params1 =>
      -- the four vector groups, in source order: a missing group lands in
      -- an except branch whose body is the bare undefined name xxxxxx
      if !p.vestPresent then .error (PyErr.nameError ("name xxxxxx is not defined"))
      else if !p.vmagPresent then .error (PyErr.nameError ("name xxxxxx is not defined"))
      else if !p.eestPresent then .error (PyErr.nameError ("name xxxxxx is not defined"))
      else if !p.emagPresent then .error (PyErr.nameError ("name xxxxxx is not defined"))
      else .ok (params1
        ++ (if byGeo ≠ 0 then ["magvel", "dmagvel", "gnangle", "dgnangle"]
            else ["magvel", "dmagvel", "nangle", "dnangle"])
        ++ (if byGeo ≠ 0 then ["en", "den", "ee", "dee", "eu", "deu"]
            else ["epn", "depn", "epe", "depe"])
        ++ (if byGeo ≠ 0 then ["magef", "dmagef", "geangle", "dgeangle"]
            else ["magef", "dmagef", "eangle", "deangle"]))

/-- One record-slice of the arrays the 2D loop of hdf5VelocityToMadrigal
reads (index recIndex already applied); triples are the north / east /
parallel components (hard-coded indices 0, 1, 2). -/
structure VelArrays where
  nmeas : List FVal
  plat : List (FVal × FVal)
  vest : List (FVal × FVal × FVal)
  dvest : List (FVal × FVal × FVal)
  vmag : List FVal
  dvmag : List FVal
  vdir : List FVal
  dvdir : List FVal
  eest : List (FVal × FVal × FVal)
  deest : List (FVal × FVal × FVal)
  emag : List FVal
  demag : List FVal
  edir : List FVal
  dedir : List FVal
deriving Repr

/-- np.maximum(dvestArray, minVErr) on one component triple. -/
def clampTriple (t : FVal × FVal × FVal) : FVal × FVal × FVal :=
  (t.1.fmax (.num vMinVErr), t.2.1.fmax (.num vMinVErr), t.2.2.fmax (.num vMinVErr))

/-- Line 1441 of the source: dvestArray = np.maximum(dvestArray, minVErr)
is applied to the whole error array at load time, before any validity
check runs (no other error array is clamped). -/
def velArraysPrepared (A : VelArrays) : VelArrays :=
  { A with dvest := A.dvest.map clampTriple }

/-- The shared validity gate of the velocity-component try blocks (vipn,
dvipn, vipe, dvipe, vi6, dvi6 and the vi1/vi2/vi3 variants): the value
cell and the error cell are guarded by the same condition, so the final
pair is either both numeric or both missing. -/
def velCompPair (v dv : FVal) : Cell × Cell :=
  if v.isnan || dv.isnan || (dv.fabs).flt (.num vMinVErr)
      || (dv.fabs).fgt (.num vMaxVErr) || (v.fabs).fgt (.num vMaxV) then
    (Cell.missing, Cell.missing)
  else
    match v, dv with
    | .num a, .num b => (Cell.value a, Cell.value b)
    | _, _ => (Cell.missing, Cell.missing)  -- unreachable: NaN already handled

/-- The electric-field component gate (epn/depn/epe/depe and en/den/...):
same shape with the E limits. -/
def eCompPair (v dv : FVal) : Cell × Cell :=
  if v.isnan || dv.isnan || (dv.fabs).flt (.num vMinEErr)
      || (dv.fabs).fgt (.num vMaxEErr) || (v.fabs).fgt (.num vMaxE) then
    (Cell.missing, Cell.missing)
  else
    match v, dv with
    | .num a, .num b => (Cell.value a, Cell.value b)
    | _, _ => (Cell.missing, Cell.missing)  -- unreachable: NaN already handled

/-- The magnitude gates (magvel/dmagvel with V limits, magef/dmagef with E
limits) have the same shape as the component gates. -/
def magPair (bound errLo errHi : ℚ) (v dv : FVal) : Cell × Cell :=
  if v.isnan || dv.isnan || (dv.fabs).flt (.num errLo)
      || (dv.fabs).fgt (.num errHi) || (v.fabs).fgt (.num bound) then
    (Cell.missing, Cell.missing)
  else
    match v, dv with
    | .num a, .num b => (Cell.value a, Cell.value b)
    | _, _ => (Cell.missing, Cell.missing)  -- unreachable: NaN already handled

/-- The direction gates (nangle/dnangle, eangle/deangle and geographic
variants): valid iff neither is NaN and 1e-2 <= err <= maxDirErr (no
absolute values here). -/
def dirPair (v dv : FVal) : Cell × Cell :=
  if v.isnan || dv.isnan || dv.fgt (.num vMaxDirErr) || dv.flt (.num (1 / 100)) then
    (Cell.missing, Cell.missing)
  else
    match v, dv with
    | .num a, .num b => (Cell.value a, Cell.value b)
    | _, _ => (Cell.missing, Cell.missing)  -- unreachable: NaN already handled

/-- Python-style reads with NaN defaults for the velocity arrays. -/
def pyGetP (xs : List (FVal × FVal)) (i : ℕ) : FVal × FVal :=
  xs.getD i (FVal.nan, FVal.nan)

def pyGetT (xs : List (FVal × FVal × FVal)) (i : ℕ) : FVal × FVal × FVal :=
  xs.getD i (FVal.nan, FVal.nan, FVal.nan)

/-- The cell the 2D loop of hdf5VelocityToMadrigal stores for one parameter
name at one bin, reading the prepared (clamped) arrays. -/
def velCell (A : VelArrays) (param : String) (platIndex : ℕ) : Cell :=
  if param = "nsmpta" then nanGuardCell (pyGetF A.nmeas platIndex)
  else if param = "gdlat" || param = "cgm_lat" then
    let p := pyGetP A.plat platIndex
    if p.1.isnan || p.2.isnan then Cell.missing
    else match p.1, p.2 with
      | .num a, .num b => Cell.value ((a + b) / 2)
      | _, _ => Cell.missing  -- unreachable: NaN already handled
  else if param = "vipn" || param = "vi2" then
    (velCompPair (pyGetT A.vest platIndex).1 (pyGetT A.dvest platIndex).1).1
  else if param = "dvipn" || param = "dvi2" then
    (velCompPair (pyGetT A.vest platIndex).1 (pyGetT A.dvest platIndex).1).2
  else if param = "vipe" || param = "vi1" then
    (velCompPair (pyGetT A.vest platIndex).2.1 (pyGetT A.dvest platIndex).2.1).1
  else if param = "dvipe" || param = "dvi1" then
    (velCompPair (pyGetT A.vest platIndex).2.1 (pyGetT A.dvest platIndex).2.1).2
  else if param = "vi6" || param = "vi3" then
    (velCompPair (pyGetT A.vest platIndex).2.2 (pyGetT A.dvest platIndex).2.2).1
  else if param = "dvi6" || param = "dvi3" then
    (velCompPair (pyGetT A.vest platIndex).2.2 (pyGetT A.dvest platIndex).2.2).2
  else if param = "epn" || param = "en" then
    (eCompPair (pyGetT A.eest platIndex).1 (pyGetT A.deest platIndex).1).1
  else if param = "depn" || param = "den" then
    (eCompPair (pyGetT A.eest platIndex).1 (pyGetT A.deest platIndex).1).2
  else if param = "epe" || param = "ee" then
    (eCompPair (pyGetT A.eest platIndex).2.1 (pyGetT A.deest platIndex).2.1).1
  else if param = "depe" || param = "dee" then
    (eCompPair (pyGetT A.eest platIndex).2.1 (pyGetT A.deest platIndex).2.1).2
  else if param = "eu" then
    (eCompPair (pyGetT A.eest platIndex).2.2 (pyGetT A.deest platIndex).2.2).1
  else if param = "deu" then
    (eCompPair (pyGetT A.eest platIndex).2.2 (pyGetT A.deest platIndex).2.2).2
  else if param = "magvel" then
    (magPair vMaxV vMinVErr vMaxVErr (pyGetF A.vmag platIndex) (pyGetF A.dvmag platIndex)).1
  else if param = "dmagvel" then
    (magPair vMaxV vMinVErr vMaxVErr (pyGetF A.vmag platIndex) (pyGetF A.dvmag platIndex)).2
  else if param = "magef" then
    (magPair vMaxE vMinEErr vMaxEErr (pyGetF A.emag platIndex) (pyGetF A.demag platIndex)).1
  else if param = "dmagef" then
    (magPair vMaxE vMinEErr vMaxEErr (pyGetF A.emag platIndex) (pyGetF A.demag platIndex)).2
  else if param = "nangle" || param = "gnangle" then
    (dirPair (pyGetF A.vdir platIndex) (pyGetF A.dvdir platIndex)).1
  else if param = "dnangle" || param = "dgnangle" then
    (dirPair (pyGetF A.vdir platIndex) (pyGetF A.dvdir platIndex)).2
  else if param = "eangle" || param = "geangle" then
    (dirPair (pyGetF A.edir platIndex) (pyGetF A.dedir platIndex)).1
  else if param = "deangle" || param = "dgeangle" then
    (dirPair (pyGetF A.edir platIndex) (pyGetF A.dedir platIndex)).2
  else Cell.missing  -- unreachable: the source raises on unhandled names

/-- One record of hdf5VelocityToMadrigal: the 2D loop fills, for every
parameter in params and every platIndex below numPlat (= the length of
the bin-latitude array), one cell; columns are presented per parameter.
The raw arrays are first prepared by the load-time error clamp. -/
def buildVelocityRec (rawA : VelArrays) (params : List String) :
    List (String × List Cell) :=
  let A := velArraysPrepared rawA
  let numPlat := A.plat.length
  params.map (fun p => (p, (List.range numPlat).map (fun i => velCell A p i)))

/- ------------------------------------------------------------------ -/
/- Parallel dispatch (mp_wrapper, shared-memory slots, collection)    -/
/- ------------------------------------------------------------------ -/

/-- mp_wrapper for task index i: runs the record builder on the tuple; a
None result returns without touching the shared-memory slot array, and a
real record is serialised into slot i (each task writes only its own
slot).  Writing past the array is impossible since i indexes inputs. -/
def writeSlot (tasks : List (Option FittedRec)) (slots : List (Option FittedRec))
    (i : ℕ) : List (Option FittedRec) :=
  match tasks.getD i none with
  | none => slots
  | some r => slots.set i (some r)

/-- The shared-memory result array after every worker has completed, the
completions arriving in the given order (a permutation of the submission
indices).  The array starts out zero-filled: every slot empty. -/
def runPool (tasks : List (Option FittedRec)) (order : List ℕ) :
    List (Option FittedRec) :=
  order.foldl (writeSlot tasks) (List.replicate tasks.length none)

/-- dill.loads on one result slot: a slot that was never written still
holds the zero bytes the shared memory was created with, and unpickling
the empty byte string raises EOFError. -/
def dill_loads : Option FittedRec → Except PyErr FittedRec
  | some r => .ok r
  | none => .error PyErr.eofError

/-- The collection loop of hdf5ToMadrigal.__init__: decodes every slot in
submission-index order, appending each decoded record to the output
container; the first failing decode aborts the conversion. -/
def collectRecords : List (Option FittedRec) → Except PyErr (List FittedRec)
  | [] => .ok []
  | s :: rest => do
    let r ← dill_loads s
    let rs ← collectRecords rest
    pure (r :: rs)

/-- The whole standard-handler pipeline after tuple extraction: the pool
fills one slot per task (in some completion order; the result is proved
independent of it), and the collection loop consumes the slots in
submission order.  Here the slots are written directly in submission
order. -/
def runFittedConversion (inputs : List FittedInputs) : Except PyErr (List FittedRec) :=
  collectRecords (inputs.map set_fitted_data_rec)

/- ------------------------------------------------------------------ -/
/- Type dispatcher (hdf5Handler)                                      -/
/- ------------------------------------------------------------------ -/

/-- Python str.lower, modelled character by character (the file-type tags
are plain ASCII). -/
def pyLower (s : String) : String := ⟨s.data.map Char.toLower⟩

/-- hdf5Handler.__init__: lower-cases the tag and stores the canonical
type string, raising ValueError on anything unrecognised. -/
def hdf5HandlerType (hdf5Type : String) : Except PyErr String :=
  if pyLower hdf5Type = "standard" then .ok ("standard")
  else if pyLower hdf5Type = "velocity" then .ok ("velocity")
  else if pyLower hdf5Type = "uncorrected_ne_only" then .ok ("uncorrected_ne_only")
  else if pyLower hdf5Type = "velocityalt" then .ok ("velocityAlt")
  else .error (PyErr.valueError ("Unknown hdf5 file type"))

/-- One (time, beam) tuple of the uncorrected handler. -/
structure UncTuple where
  txPowerW : ℚ
  pop : List FVal
  dpop : List FVal
deriving Repr

/-- The extracted contents of one source file, as far as the three
handlers read them. -/
structure Hdf5File where
  fittedInputs : List FittedInputs
  uncRanges : List ℚ
  uncTuples : List UncTuple
  velPresence : VelPresence
  velRecs : List VelArrays
deriving Repr

/-- A record of any of the three handlers. -/
inductive MadRecord where
  | fitted (r : FittedRec) : MadRecord
  | uncorr (r : UncorrRec) : MadRecord
  | vel (r : List (String × List Cell)) : MadRecord
deriving Repr

/-- hdf5Handler.createMadrigalFile: dispatches on the stored type string.
The velocityAlt branch calls hdf5VelocityAltToMadrigal, a name that is
never defined anywhere in the module, so reaching that branch raises
NameError at the name lookup, before the input file is even opened. -/
def createMadrigalFile (lg : ℚ → ℚ) (ty : String) (f : Hdf5File)
    (lowerRange upperRange : Option ℚ) : Except PyErr (List MadRecord) :=
  if ty = "standard" then
    (runFittedConversion f.fittedInputs).map (List.map MadRecord.fitted)
  else if ty = "velocity" then do
    let params ← loadVelocityParams f.velPresence
    pure (f.velRecs.map (fun A => MadRecord.vel (buildVelocityRec A params)))
  else if ty = "uncorrected_ne_only" then do
    let (l, u) ← computeRangeWindow f.uncRanges lowerRange upperRange
    pure (f.uncTuples.map (fun t =>
      MadRecord.uncorr (set_uncorrected_data_rec lg (t.txPowerW / 1000) l u
        (f.uncRanges.map FVal.num) t.pop t.dpop)))
  else if ty = "velocityAlt" then
    .error (PyErr.nameError ("name hdf5VelocityAltToMadrigal is not defined"))
  else .error (PyErr.valueError ("Unknown self type"))

/- ------------------------------------------------------------------ -/
/- Concrete inputs used by the claim theorems                         -/
/- ------------------------------------------------------------------ -/

/-- One gate with a valid range, ne = 1e10 (inside the ne bounds, not
NaN), and dne = 0.5 (invalid: not strictly above minNeErr = 1.0). -/
def cexC1 : FittedInputs :=
  { txpower := 1
    rangeValue := [FVal.num 100000]
    neValue := [FVal.num (10 ^ 10)]
    dneValue := [FVal.num (1 / 2)]
    fits := [nanGateFits]
    chisqValue := [FVal.nan]
    snrValue := [FVal.nan]
    platValue := [FVal.nan]
    plongValue := [FVal.nan] }

/-- One gate with a valid range and an out-of-bounds ion fraction 1.5. -/
def cexC7 : FittedInputs :=
  { txpower := 1
    rangeValue := [FVal.num 100000]
    neValue := [FVal.nan]
    dneValue := [FVal.nan]
    fits := [{ nanGateFits with fract := FVal.num (3 / 2) }]
    chisqValue := [FVal.nan]
    snrValue := [FVal.nan]
    platValue := [FVal.nan]
    plongValue := [FVal.nan] }

/-- A fitted tuple extracted from raw transmit power 500000 W and one gate
at raw range 150000 m. -/
def cexC4 : FittedInputs :=
  mkFittedInputs 500000 [FVal.num 150000] [FVal.nan] [FVal.nan] [nanGateFits]
    [FVal.nan] [FVal.nan] [FVal.nan] [FVal.nan]

/-- A well-behaved fitted tuple (every field valid at its one gate). -/
def goodFitted : FittedInputs :=
  { txpower := 500
    rangeValue := [FVal.num 150000]
    neValue := [FVal.num (10 ^ 10)]
    dneValue := [FVal.num 100]
    fits := [{ tiVal := FVal.num 1000, tiErr := FVal.num 50,
               teVal := FVal.num 2000, teErr := FVal.num 60,
               voVal := FVal.num 100, voErr := FVal.num 5,
               fract := FVal.num 1 }]
    chisqValue := [FVal.num 1]
    snrValue := [FVal.num 2]
    platValue := [FVal.num 65]
    plongValue := [FVal.num 250] }

/-- A fitted tuple whose range array is entirely NaN. -/
def allNanFitted : FittedInputs :=
  { txpower := 500
    rangeValue := [FVal.nan, FVal.nan]
    neValue := [FVal.num (10 ^ 10), FVal.num (10 ^ 10)]
    dneValue := [FVal.num 100, FVal.num 100]
    fits := [nanGateFits, nanGateFits]
    chisqValue := [FVal.nan, FVal.nan]
    snrValue := [FVal.nan, FVal.nan]
    platValue := [FVal.nan, FVal.nan]
    plongValue := [FVal.nan, FVal.nan] }

/-- One bin: vest north component 10 with raw error 0.5 (below the
claimed lower error bound 1.0). -/
def cexVel : VelArrays :=
  { nmeas := [FVal.num 5]
    plat := [(FVal.num 60, FVal.num 61)]
    vest := [(FVal.num 10, FVal.nan, FVal.nan)]
    dvest := [(FVal.num (1 / 2), FVal.nan, FVal.nan)]
    vmag := [FVal.nan]
    dvmag := [FVal.nan]
    vdir := [FVal.nan]
    dvdir := [FVal.nan]
    eest := [(FVal.nan, FVal.nan, FVal.nan)]
    deest := [(FVal.nan, FVal.nan, FVal.nan)]
    emag := [FVal.nan]
    demag := [FVal.nan]
    edir := [FVal.nan]
    dedir := [FVal.nan] }

/-- An input file with no data (the velocityAlt branch never looks at
it). -/
def emptyHdf5File : Hdf5File :=
  { fittedInputs := []
    uncRanges := []
    uncTuples := []
    velPresence :=
      { requiredPresent := true, geoBinning := none, platPresent := true,
        magLatPresent := true, vestPresent := true, vmagPresent := true,
        eestPresent := true, emagPresent := true }
    velRecs := [] }

/-- Presence flags with only the electric-field vector group (Eest /
errEest) absent. -/
def cexPresence : VelPresence :=
  { requiredPresent := true, geoBinning := none, platPresent := true,
    magLatPresent := true, vestPresent := true, vmagPresent := true,
    eestPresent := false, emagPresent := true }


/-- The claim-side window membership, written from the claim: gate i has
its range in km at or above the lower cutoff (when given) and strictly
below the upper cutoff (when given). -/
def inCutoffWindow (ranges : List ℚ) (lo hi : Option ℚ) (i : ℕ) : Prop :=
  (∀ l0 ∈ lo, l0 ≤ ranges.getD i 0 / 1000) ∧ (∀ h0 ∈ hi, ranges.getD i 0 / 1000 < h0)

/-- The C2 conclusion at one input: when the window computation returns
ok (l, u), the rows emitted are exactly the contiguous gates with index
in [l, u), ascending, each stored as range / 1000, and for sorted input
these are exactly the gates whose range in km lies in the half-open
cutoff window; and the computation errors iff no gate lies in the
window. -/
def C2Conclusion (ranges : List ℚ) (lo hi : Option ℚ) : Prop :=
  (∀ l u, computeRangeWindow ranges lo hi = .ok (l, u) →
    l < u ∧ u ≤ ranges.length ∧
    (∀ i, i < ranges.length → ((l ≤ i ∧ i < u) ↔ inCutoffWindow ranges lo hi i)) ∧
    ∀ (lg : ℚ → ℚ) (tx : ℚ) (pv dv : List FVal),
      (set_uncorrected_data_rec lg tx l u (ranges.map FVal.num) pv dv).range =
        (List.range' l (u - l)).map (fun i => Cell.value (ranges.getD i 0 / 1000))) ∧
  ((∃ e, computeRangeWindow ranges lo hi = .error e) ↔
    ∀ i, i < ranges.length → ¬ inCutoffWindow ranges lo hi i)

/-- The per-file range array of the range-cutoff scenario: gates at
50, 100, ..., 950 km, stored in meters. -/
def cexRanges : List ℚ :=
  [50000, 100000, 150000, 200000, 250000, 300000, 350000, 400000, 450000, 500000,
   550000, 600000, 650000, 700000, 750000, 800000, 850000, 900000, 950000]

/- ------------------------------------------------------------------ -/
/- C1: ne / dne validity filtering in the fitted handler              -/
/- ------------------------------------------------------------------ -/

/-- C1 counterexample: ne = 1e10 satisfies the claimed emission condition
for ne alone (minNe <= ne <= maxNe, not NaN), yet the built record's ne
cell is the missing marker, because the paired dne = 0.5 is invalid and
the shared except handler overwrites both cells with missing.  So "ne is
emitted as a number iff minNe <= ne <= maxNe and ne is not NaN" is false
on the code. -/
theorem C1_counterexample :
    (minNe ≤ 10 ^ 10 ∧ (10 ^ 10 : ℚ) ≤ maxNe ∧ (FVal.num (10 ^ 10)).isnan = false) ∧
    (set_fitted_data_rec cexC1).map FittedRec.ne = some [Cell.missing] := by
  decide

/-- C1 (amended): the ne / dne pair of set_fitted_data_rec is emitted
all-or-nothing: both cells are numeric iff minNe <= ne <= maxNe with ne
not NaN AND minNeErr < dne <= maxNeErr with dne not NaN; if any of these
fails (including NaN in either), both cells are the missing marker.  The
second conjunct ties the pair function to the built record's columns. -/
theorem C1_ne_dne_pair_gating :
    (∀ ne dne : FVal,
      (∃ a b : ℚ, ne = FVal.num a ∧ dne = FVal.num b ∧
          minNe ≤ a ∧ a ≤ maxNe ∧ minNeErr < b ∧ b ≤ maxNeErr ∧
          neDnePair ne dne = (Cell.value a, Cell.value b)) ∨
        (neDnePair ne dne = (Cell.missing, Cell.missing) ∧
          ¬∃ a b : ℚ, ne = FVal.num a ∧ dne = FVal.num b ∧
            minNe ≤ a ∧ a ≤ maxNe ∧ minNeErr < b ∧ b ≤ maxNeErr)) ∧
    (∀ inp : FittedInputs,
      (set_fitted_data_rec inp).elim True (fun r =>
        r.ne = (validRangeIndices inp.rangeValue).map
          (fun i => (neDnePair (pyGetF inp.neValue i) (pyGetF inp.dneValue i)).1) ∧
        r.dne = (validRangeIndices inp.rangeValue).map
          (fun i => (neDnePair (pyGetF inp.neValue i) (pyGetF inp.dneValue i)).2))) := by
  constructor
  · intro ne dne
    cases ne with
    | nan =>
      right
      refine ⟨by simp [neDnePair, FVal.isnan], ?_⟩
      rintro ⟨a, b, h, -⟩
      exact FVal.noConfusion h
    | num a =>
      cases dne with
      | nan =>
        right
        constructor
        · by_cases h1 : a < minNe
          · simp [neDnePair, FVal.flt, FVal.fgt, FVal.fle, FVal.isnan, h1]
          · by_cases h2 : maxNe < a <;>
              simp [neDnePair, FVal.flt, FVal.fgt, FVal.fle, FVal.isnan, h1, h2]
        · rintro ⟨a', b', -, h, -⟩
          exact FVal.noConfusion h
      | num b =>
        by_cases hne : a < minNe ∨ maxNe < a
        · right
          constructor
          · rcases hne with h | h <;>
              simp [neDnePair, FVal.flt, FVal.fgt, FVal.fle, FVal.isnan, h]
          · rintro ⟨a', b', ha, -, c1, c2, -⟩
            cases ha
            rcases hne with h | h
            · exact absurd c1 (by linarith)
            · exact absurd c2 (by linarith)
        · push_neg at hne
          by_cases hdne : b ≤ minNeErr ∨ maxNeErr < b
          · right
            constructor
            · rcases hdne with h | h <;>
                simp [neDnePair, FVal.flt, FVal.fgt, FVal.fle, FVal.isnan, h,
                  not_lt.mpr hne.1, not_lt.mpr hne.2]
            · rintro ⟨a', b', -, hb, -, -, c3, c4⟩
              cases hb
              rcases hdne with h | h
              · exact absurd c3 (by linarith)
              · exact absurd c4 (by linarith)
          · push_neg at hdne
            left
            refine ⟨a, b, rfl, rfl, hne.1, hne.2, hdne.1, hdne.2, ?_⟩
            simp [neDnePair, FVal.flt, FVal.fgt, FVal.fle, FVal.isnan,
              not_lt.mpr hne.1, not_lt.mpr hne.2, not_lt.mpr hdne.2, not_le.mpr hdne.1]
  · intro inp
    unfold set_fitted_data_rec
    by_cases h : (validRangeIndices inp.rangeValue).isEmpty <;> simp [h]

/- ------------------------------------------------------------------ -/
/- C7: po+ / dpo+ filtering in the fitted handler                     -/
/- ------------------------------------------------------------------ -/

/-- C7 counterexample: with an invalid ion fraction (1.5 > maxFract), the
built record's dpo+ cell is the missing marker, not the fixed marker
assumed — refuting "dpo+ is always the fixed marker assumed, including
when the fraction value itself is invalid". -/
theorem C7_counterexample :
    (set_fitted_data_rec cexC7).map FittedRec.dpoPlus = some [Cell.missing] ∧
    Cell.missing ≠ Cell.assumed := by
  decide

/-- C7 (amended): po+ is emitted as a number iff minFract <= value <=
maxFract and the value is not NaN; its paired dpo+ cell is the fixed
marker assumed exactly when the fraction is valid and the missing marker
otherwise; dpo+ is never a numeric value.  The last conjunct ties the
pair function to the built record's columns. -/
theorem C7_po_fraction_gating :
    (∀ f : FVal,
      (∃ a : ℚ, f = FVal.num a ∧ minFract ≤ a ∧ a ≤ maxFract ∧
          poPair f = (Cell.value a, Cell.assumed)) ∨
        (poPair f = (Cell.missing, Cell.missing) ∧
          ¬∃ a : ℚ, f = FVal.num a ∧ minFract ≤ a ∧ a ≤ maxFract)) ∧
    (∀ (f : FVal) (q : ℚ), (poPair f).2 ≠ Cell.value q) ∧
    (∀ inp : FittedInputs,
      (set_fitted_data_rec inp).elim True (fun r =>
        r.poPlus = (validRangeIndices inp.rangeValue).map
          (fun i => (poPair (inp.fits.getD i nanGateFits).fract).1) ∧
        r.dpoPlus = (validRangeIndices inp.rangeValue).map
          (fun i => (poPair (inp.fits.getD i nanGateFits).fract).2))) := by
  have hmain : ∀ f : FVal,
      (∃ a : ℚ, f = FVal.num a ∧ minFract ≤ a ∧ a ≤ maxFract ∧
          poPair f = (Cell.value a, Cell.assumed)) ∨
        (poPair f = (Cell.missing, Cell.missing) ∧
          ¬∃ a : ℚ, f = FVal.num a ∧ minFract ≤ a ∧ a ≤ maxFract) := by
    intro f
    cases f with
    | nan =>
      right
      refine ⟨by simp [poPair, FVal.isnan], ?_⟩
      rintro ⟨a, h, -⟩
      exact FVal.noConfusion h
    | num a =>
      by_cases hf : maxFract < a ∨ a < minFract
      · right
        constructor
        · rcases hf with h | h <;> simp [poPair, FVal.flt, FVal.fgt, FVal.isnan, h]
        · rintro ⟨a', ha, c1, c2⟩
          cases ha
          rcases hf with h | h
          · exact absurd c2 (by linarith)
          · exact absurd c1 (by linarith)
      · push_neg at hf
        left
        exact ⟨a, rfl, hf.2, hf.1,
          by simp [poPair, FVal.flt, FVal.fgt, FVal.isnan, not_lt.mpr hf.1, not_lt.mpr hf.2]⟩
  refine ⟨hmain, ?_, ?_⟩
  · intro f q
    rcases hmain f with ⟨a, -, -, -, h⟩ | ⟨h, -⟩ <;> simp [h]
  · intro inp
    unfold set_fitted_data_rec
    by_cases h : (validRangeIndices inp.rangeValue).isEmpty <;> simp [h]

/- ------------------------------------------------------------------ -/
/- C4: unit conversions in the built records                          -/
/- ------------------------------------------------------------------ -/

/-- C4 counterexample: a fitted record built from a gate at raw range
150000 m stores 150000.0 in its range column — set_fitted_data_rec
performs no m-to-km conversion on range — refuting "in every built
output record a raw range value of 150000 meters appears as 150.0 km". -/
theorem C4_counterexample :
    (set_fitted_data_rec cexC4).map FittedRec.range = some [Cell.value 150000] ∧
    Cell.value 150000 ≠ Cell.value 150 := by
  decide

/-- C4 (amended): the uncorrected handler converts range m to km (raw
150000 appears as 150.0) and power W to kW (raw 500000 appears as 500.0);
the fitted handler converts power W to kW but stores its range column
UNCONVERTED (raw 150000 appears as 150000.0); the velocity handler has
no range or power field. -/
theorem C4_unit_conversions :
    (∀ lg : ℚ → ℚ,
      uncorrectedRecord lg 500000 [150000] none none [FVal.num 1] [FVal.num 1] =
        .ok { power := 500, range := [Cell.value 150],
              popl := [Cell.value (lg 1)], dpopl := [Cell.value (lg 1)] }) ∧
    (set_fitted_data_rec cexC4).map (fun r => (r.power, r.range)) =
      some (500, [Cell.value 150000]) := by
  constructor
  · intro lg
    have hw : computeRangeWindow [(150000 : ℚ)] none none = .ok (0, 1) := by decide
    simp [uncorrectedRecord, hw, set_uncorrected_data_rec, poplPair, uncorrRangeCell,
      pyGetF, List.range', one_mul]
    norm_num
  · decide

/- ------------------------------------------------------------------ -/
/- C5: all-NaN range tuples in the fitted pipeline                    -/
/- ------------------------------------------------------------------ -/

/-- C5: the record builder does return the no-record sentinel (None) for
an all-NaN range tuple and mp_wrapper leaves that slot unwritten — but
the collection loop then unpickles the empty slot, raising EOFError and
aborting the whole conversion, so records for later tuples are lost
rather than unaffected.  The claim describes the intended behaviour
(spec section 7: per-record emptiness is not an error); the collection
loop contradicts the None handling that mp_wrapper itself implements. -/
theorem C5_empty_record_crash :
    set_fitted_data_rec allNanFitted = none ∧
    runFittedConversion [goodFitted, allNanFitted, goodFitted] = .error PyErr.eofError := by
  decide

/- ------------------------------------------------------------------ -/
/- C3: row-count invariant across all three handlers                  -/
/- ------------------------------------------------------------------ -/

/-- C3: in every built record, every 2D column has the same number of
rows: the number of valid (non-NaN) range gates for the fitted handler,
the number of used range gates (upper minus lower cutoff index) for the
uncorrected handler, and the number of spatial bins for the velocity
handler. -/
theorem C3_row_count_invariant :
    (∀ inp : FittedInputs,
      (set_fitted_data_rec inp).elim True (fun r =>
        let n := (validRangeIndices inp.rangeValue).length
        r.range.length = n ∧ r.ne.length = n ∧ r.dne.length = n ∧ r.ti.length = n ∧
        r.dti.length = n ∧ r.te.length = n ∧ r.dte.length = n ∧ r.vo.length = n ∧
        r.dvo.length = n ∧ r.cgmLat.length = n ∧ r.cgmLong.length = n ∧
        r.poPlus.length = n ∧ r.dpoPlus.length = n ∧ r.chisq.length = n ∧
        r.sn.length = n)) ∧
    (∀ (lg : ℚ → ℚ) (tx : ℚ) (l u : ℕ) (rv pv dv : List FVal),
      (set_uncorrected_data_rec lg tx l u rv pv dv).range.length = u - l ∧
      (set_uncorrected_data_rec lg tx l u rv pv dv).popl.length = u - l ∧
      (set_uncorrected_data_rec lg tx l u rv pv dv).dpopl.length = u - l) ∧
    (∀ (rawA : VelArrays) (params : List String),
      (buildVelocityRec rawA params).map (fun pc => pc.2.length) =
        params.map (fun _ => rawA.plat.length)) := by
  refine ⟨?_, ?_, ?_⟩
  · intro inp
    unfold set_fitted_data_rec
    by_cases h : (validRangeIndices inp.rangeValue).isEmpty <;> simp [h]
  · intro lg tx l u rv pv dv
    refine ⟨?_, ?_, ?_⟩ <;> simp [set_uncorrected_data_rec]
  · intro rawA params
    simp [buildVelocityRec, velArraysPrepared, List.map_map, Function.comp_def]

/- ------------------------------------------------------------------ -/
/- C6: vector-velocity component gating                               -/
/- ------------------------------------------------------------------ -/

/-- C6 counterexample: the north velocity component with raw error 0.5
(which violates the claimed condition 1.0 <= absolute error) is emitted
as the pair of numbers (10.0, 1.0) — not set to missing — because the
load-time clamp dvestArray = np.maximum(dvestArray, minVErr) lifts the
error to 1.0 before the validity check runs. -/
theorem C6_counterexample :
    buildVelocityRec cexVel ["vipn", "dvipn"] =
      [("vipn", [Cell.value 10]), ("dvipn", [Cell.value 1])] ∧
    ¬(vMinVErr ≤ |(1 : ℚ) / 2|) := by
  decide

/-- pyGetT through the clamped error array equals the clamp of the raw
read (the clamp of the all-NaN default is the all-NaN default). -/
theorem pyGetT_map_clampTriple (l : List (FVal × FVal × FVal)) (i : ℕ) :
    pyGetT (l.map clampTriple) i = clampTriple (pyGetT l i) := by
  induction l generalizing i with
  | nil => cases i <;> rfl
  | cons x xs ih =>
    cases i with
    | zero => rfl
    | succ j => simpa [pyGetT] using ih j

/-- C6 (amended): the error array is clamped elementwise to at least
minVErr = 1.0 at load time (NaN preserved); a component pair is then
emitted as numbers iff neither the value nor the raw error is NaN, the
clamped error max(err, 1.0) is at most 32765.0 in absolute value (the
lower bound 1.0 <= absolute clamped error holds automatically), and the
absolute value is at most 32765.0; the error emitted is the clamped one.
Otherwise both cells are the missing marker.  The second conjunct ties
the gate to the record cells built for the vipn / dvipn columns. -/
theorem C6_velocity_component_gating :
    (∀ v draw : FVal,
      (∃ a b : ℚ, v = FVal.num a ∧ draw = FVal.num b ∧
          |a| ≤ vMaxV ∧ |max b vMinVErr| ≤ vMaxVErr ∧
          velCompPair v (draw.fmax (FVal.num vMinVErr)) =
            (Cell.value a, Cell.value (max b vMinVErr))) ∨
        (velCompPair v (draw.fmax (FVal.num vMinVErr)) = (Cell.missing, Cell.missing) ∧
          ¬∃ a b : ℚ, v = FVal.num a ∧ draw = FVal.num b ∧
            |a| ≤ vMaxV ∧ |max b vMinVErr| ≤ vMaxVErr)) ∧
    (∀ (rawA : VelArrays) (i : ℕ),
      velCell (velArraysPrepared rawA) "vipn" i =
        (velCompPair (pyGetT rawA.vest i).1
          ((pyGetT rawA.dvest i).1.fmax (FVal.num vMinVErr))).1 ∧
      velCell (velArraysPrepared rawA) "dvipn" i =
        (velCompPair (pyGetT rawA.vest i).1
          ((pyGetT rawA.dvest i).1.fmax (FVal.num vMinVErr))).2) := by
  constructor
  · intro v draw
    cases v with
    | nan =>
      right
      refine ⟨by simp [velCompPair, FVal.isnan], ?_⟩
      rintro ⟨a, b, h, -⟩
      exact FVal.noConfusion h
    | num a =>
      cases draw with
      | nan =>
        right
        refine ⟨by simp [velCompPair, FVal.fmax, FVal.isnan], ?_⟩
        rintro ⟨a', b', -, h, -⟩
        exact FVal.noConfusion h
      | num b =>
        have hge : vMinVErr ≤ max b vMinVErr := le_max_right b vMinVErr
        have habs : ¬(|max b vMinVErr| < vMinVErr) :=
          not_lt.mpr (le_trans hge (le_abs_self _))
        by_cases h1 : vMaxVErr < |max b vMinVErr|
        · right
          constructor
          · simp [velCompPair, FVal.fmax, FVal.isnan, FVal.fabs, FVal.flt, FVal.fgt,
              habs, h1]
          · rintro ⟨a', b', -, hb, -, c2⟩
            cases hb
            exact absurd c2 (not_le.mpr h1)
        · by_cases h2 : vMaxV < |a|
          · right
            constructor
            · simp [velCompPair, FVal.fmax, FVal.isnan, FVal.fabs, FVal.flt, FVal.fgt,
                habs, h1, h2]
            · rintro ⟨a', b', ha, -, c1, -⟩
              cases ha
              exact absurd c1 (not_le.mpr h2)
          · left
            refine ⟨a, b, rfl, rfl, not_lt.mp h2, not_lt.mp h1, ?_⟩
            simp [velCompPair, FVal.fmax, FVal.isnan, FVal.fabs, FVal.flt, FVal.fgt,
              habs, h1, h2]
  · intro rawA i
    constructor <;>
      simp +decide [velCell, velArraysPrepared, pyGetT_map_clampTriple, clampTriple]

/- ------------------------------------------------------------------ -/
/- C10: the velocityAlt dispatch path                                 -/
/- ------------------------------------------------------------------ -/

/-- C10: the dispatcher constructor accepts any tag that lower-cases to
velocityalt, storing the canonical type velocityAlt without error; and
for every input file, createMadrigalFile on that type raises the
undefined-name error (hdf5VelocityAltToMadrigal is referenced at the
dispatch site but defined nowhere in the module) before producing any
record. -/
theorem C10_velocityAlt_dispatch :
    (∀ s : String, pyLower s = "velocityalt" → hdf5HandlerType s = .ok ("velocityAlt")) ∧
    (∀ (lg : ℚ → ℚ) (f : Hdf5File) (lo hi : Option ℚ),
      createMadrigalFile lg "velocityAlt" f lo hi =
        .error (PyErr.nameError ("name hdf5VelocityAltToMadrigal is not defined"))) := by
  constructor
  · intro s h
    unfold hdf5HandlerType
    rw [h]
    decide
  · intro lg f lo hi
    rfl

/-- C10 witness: the mixed-case tag VelocityAlt is accepted and every
conversion attempt with it fails with the undefined-name error. -/
theorem C10_velocityAlt_dispatch_witness :
    hdf5HandlerType "VelocityAlt" = .ok ("velocityAlt") ∧
    createMadrigalFile (fun q => q) "velocityAlt" emptyHdf5File none none =
      .error (PyErr.nameError ("name hdf5VelocityAltToMadrigal is not defined")) :=
  ⟨C10_velocityAlt_dispatch.1 "VelocityAlt" (by decide),
   C10_velocityAlt_dispatch.2 (fun q => q) emptyHdf5File none none⟩

/- ------------------------------------------------------------------ -/
/- C9: absent source arrays in the velocity handler                   -/
/- ------------------------------------------------------------------ -/

/-- C9 counterexample: with only the optional electric-field vector group
absent, the load phase raises the undefined-name error (the bare xxxxxx
placeholder in the except branch) instead of omitting the derived fields
from the layout — absence of an optional field group IS fatal here. -/
theorem C9_counterexample :
    loadVelocityParams cexPresence =
      .error (PyErr.nameError ("name xxxxxx is not defined")) := by
  decide

/-- C9 (amended): the load phase of the velocity handler succeeds iff the
required arrays are present, all four vector groups (Vest, Vmag, Eest,
Emag with their errors) are present, and a bin-latitude source exists
(geographic binning, or Plat, or the MagneticLatitude fallback); absence
of any of the four vector groups raises the undefined-name error rather
than omitting fields.  Only GeographicBinning is non-fatally optional:
its absence is identical to reading the value 0. -/
theorem C9_velocity_array_absence (p : VelPresence) :
    ((∃ params, loadVelocityParams p = .ok params) ↔
      (p.requiredPresent = true ∧ p.vestPresent = true ∧ p.vmagPresent = true ∧
        p.eestPresent = true ∧ p.emagPresent = true ∧
        (p.geoBinning.getD 0 ≠ 0 ∨ p.platPresent = true ∨ p.magLatPresent = true))) ∧
    loadVelocityParams { p with geoBinning := none } =
      loadVelocityParams { p with geoBinning := some 0 } := by
  constructor
  · rcases p with ⟨rq, gb, pl, ml, ve, vm, ee, em⟩
    by_cases hgeo : gb.getD 0 ≠ 0 <;>
      cases rq <;> cases ve <;> cases vm <;> cases ee <;> cases em <;>
        cases pl <;> cases ml <;>
        simp [loadVelocityParams, hgeo]
  · rfl

/- ------------------------------------------------------------------ -/
/- C8: deterministic ordering under the worker pool                   -/
/- ------------------------------------------------------------------ -/

theorem writeSlot_length (tasks slots : List (Option FittedRec)) (i : ℕ) :
    (writeSlot tasks slots i).length = slots.length := by
  unfold writeSlot
  cases tasks.getD i none <;> simp

theorem foldl_writeSlot_length (tasks : List (Option FittedRec)) (order : List ℕ) :
    ∀ slots, (order.foldl (writeSlot tasks) slots).length = slots.length := by
  induction order with
  | nil => intro slots; rfl
  | cons i rest ih => intro slots; rw [List.foldl_cons, ih, writeSlot_length]

theorem getD_set_self {α : Type} (l : List α) (i : ℕ) (a d : α) (h : i < l.length) :
    (l.set i a).getD i d = a := by
  induction l generalizing i with
  | nil => simp at h
  | cons x xs ih =>
    cases i with
    | zero => rfl
    | succ j => simpa [List.set, List.getD] using ih j (by simpa using h)

theorem getD_set_ne {α : Type} (l : List α) (i j : ℕ) (a d : α) (h : i ≠ j) :
    (l.set i a).getD j d = l.getD j d := by
  induction l generalizing i j with
  | nil => rfl
  | cons x xs ih =>
    cases i with
    | zero =>
      cases j with
      | zero => exact absurd rfl h
      | succ j0 => rfl
    | succ i0 =>
      cases j with
      | zero => rfl
      | succ j0 => simpa [List.set, List.getD] using ih i0 j0 (fun hc => h (by rw [hc]))

theorem getD_replicate_none (n j : ℕ) :
    (List.replicate n (none : Option FittedRec)).getD j none = none := by
  induction n generalizing j with
  | zero => rfl
  | succ m ih =>
    cases j with
    | zero => rfl
    | succ j0 => exact ih j0

/-- After any sequence of completed tasks, slot j holds the encoded task
result if task j completed and produced a record, and is otherwise
untouched: each mp_wrapper call writes only its own slot. -/
theorem foldl_writeSlot_getD (tasks : List (Option FittedRec)) (order : List ℕ) :
    ∀ slots j, j < slots.length →
      (order.foldl (writeSlot tasks) slots).getD j none =
        if j ∈ order ∧ (tasks.getD j none).isSome then tasks.getD j none
        else slots.getD j none := by
  induction order with
  | nil => intro slots j hj; simp
  | cons i rest ih =>
    intro slots j hj
    rw [List.foldl_cons, ih _ j (by rw [writeSlot_length]; exact hj)]
    by_cases hji : j = i
    · subst hji
      cases h : tasks.getD j none with
      | none =>
        have hw : writeSlot tasks slots j = slots := by
          unfold writeSlot
          rw [h]
        rw [hw]
        simp
      | some r =>
        have hset : (writeSlot tasks slots j).getD j none = some r := by
          unfold writeSlot
          rw [h]
          exact getD_set_self slots j (some r) none hj
        have c2 : j ∈ j :: rest ∧ (some r : Option FittedRec).isSome :=
          ⟨List.mem_cons_self j rest, rfl⟩
        by_cases hjr : j ∈ rest
        · rw [if_pos ⟨hjr, rfl⟩, if_pos c2]
        · rw [if_neg (fun hc => hjr hc.1), hset, if_pos c2]
    · have hw : (writeSlot tasks slots i).getD j none = slots.getD j none := by
        unfold writeSlot
        cases tasks.getD i none with
        | none => rfl
        | some r => exact getD_set_ne slots i j (some r) none (fun hc => hji hc.symm)
      rw [hw]
      by_cases hc : j ∈ rest ∧ (tasks.getD j none).isSome
      · rw [if_pos hc, if_pos ⟨List.mem_cons_of_mem i hc.1, hc.2⟩]
      · rw [if_neg hc, if_neg (fun hcc =>
          hc ⟨(List.mem_cons.mp hcc.1).resolve_left hji, hcc.2⟩)]

theorem getD_eq_getElem {α : Type} (l : List α) (j : ℕ) (d : α) (h : j < l.length) :
    l.getD j d = l[j] := by
  induction l generalizing j with
  | nil => simp at h
  | cons x xs ih =>
    cases j with
    | zero => rfl
    | succ j0 => simpa [List.getD] using ih j0 (by simpa using h)

/-- The shared-memory result array after all workers complete equals the
per-task results in submission order, for ANY completion order covering
every task: the slot array is independent of worker timing. -/
theorem runPool_eq_tasks (tasks : List (Option FittedRec)) (order : List ℕ)
    (hmem : ∀ j, j < tasks.length → j ∈ order) :
    runPool tasks order = tasks := by
  have hlen : (runPool tasks order).length = tasks.length := by
    unfold runPool
    rw [foldl_writeSlot_length, List.length_replicate]
  apply List.ext_getElem hlen
  intro j h1 h2
  unfold runPool at h1 ⊢
  have hrep : j < (List.replicate tasks.length (none : Option FittedRec)).length := by
    simpa using h2
  have hmain := foldl_writeSlot_getD tasks order
    (List.replicate tasks.length none) j hrep
  rw [getD_eq_getElem _ j none h1] at hmain
  rw [hmain]
  by_cases hs : (tasks.getD j none).isSome
  · rw [if_pos ⟨hmem j h2, hs⟩]
    exact getD_eq_getElem tasks j none h2
  · have hnone : tasks.getD j none = none := Option.not_isSome_iff_eq_none.mp hs
    rw [if_neg (fun hc => hs hc.2), getD_replicate_none,
      ← getD_eq_getElem tasks j none h2, hnone]

/-- Collecting all-some slots in index order yields exactly the records
in submission order. -/
theorem collect_all_some :
    ∀ inputs : List FittedInputs,
      (∀ inp ∈ inputs, (set_fitted_data_rec inp).isSome) →
      collectRecords (inputs.map set_fitted_data_rec) =
        .ok (inputs.filterMap set_fitted_data_rec) := by
  intro inputs
  induction inputs with
  | nil => intro; rfl
  | cons x xs ih =>
    intro hall
    obtain ⟨r, hr⟩ := Option.isSome_iff_exists.mp (hall x (List.mem_cons_self x xs))
    have hxs := ih (fun inp hmem => hall inp (List.mem_cons_of_mem x hmem))
    simp [List.map_cons, collectRecords, dill_loads, hr, List.filterMap_cons, hxs]
    rfl

/-- C8: for every list of extracted tuples and every worker completion
order (any permutation of the submission indices), the collection loop
consumes the slot array in submission-index order and appends exactly the
records of the tuples in submission order (time-major, beam-minor, as
enumerated): the output sequence is independent of completion timing. -/
theorem C8_pool_ordering (inputs : List FittedInputs) (order : List ℕ)
    (hperm : order.Perm (List.range inputs.length))
    (hall : ∀ inp ∈ inputs, (set_fitted_data_rec inp).isSome) :
    collectRecords (runPool (inputs.map set_fitted_data_rec) order) =
      .ok (inputs.filterMap set_fitted_data_rec) := by
  have hmem : ∀ j, j < (inputs.map set_fitted_data_rec).length → j ∈ order := by
    intro j hj
    rw [List.length_map] at hj
    exact (hperm.mem_iff).mpr (List.mem_range.mpr hj)
  rw [runPool_eq_tasks _ _ hmem]
  exact collect_all_some inputs hall

/-- C8 witness: two tuples completed in reversed order still collect in
submission order. -/
theorem C8_pool_ordering_witness :
    ([1, 0].Perm (List.range [goodFitted, goodFitted].length)) ∧
    collectRecords (runPool ([goodFitted, goodFitted].map set_fitted_data_rec) [1, 0]) =
      .ok ([goodFitted, goodFitted].filterMap set_fitted_data_rec) :=
  ⟨by decide, C8_pool_ordering [goodFitted, goodFitted] [1, 0] (by decide) (by decide)⟩

/- ------------------------------------------------------------------ -/
/- C2: range-cutoff window of the uncorrected handler                 -/
/- ------------------------------------------------------------------ -/

theorem foldl_pair_split (f g : Option ℕ → ℕ → Option ℕ) :
    ∀ (xs : List ℕ) (a b : Option ℕ),
      xs.foldl (fun st i => (f st.1 i, g st.2 i)) (a, b) = (xs.foldl f a, xs.foldl g b) := by
  intro xs
  induction xs with
  | nil => intro a b; rfl
  | cons x xs ih => intro a b; simp only [List.foldl_cons]; exact ih (f a x) (g b x)

theorem foldl_keepFirst_some (σ : Option ℕ → ℕ → Option ℕ)
    (h2 : ∀ a i, σ (some a) i = some a) :
    ∀ (xs : List ℕ) (a : ℕ), xs.foldl σ (some a) = some a := by
  intro xs
  induction xs with
  | nil => intro a; rfl
  | cons x xs ih => intro a; simp only [List.foldl_cons, h2]; exact ih a

theorem foldl_keepFirst (σ : Option ℕ → ℕ → Option ℕ) (p : ℕ → Bool) (g : ℕ → ℕ)
    (h1 : ∀ i, σ none i = if p i then some (g i) else none)
    (h2 : ∀ a i, σ (some a) i = some a) :
    ∀ xs : List ℕ, xs.foldl σ none = (xs.find? p).map g := by
  intro xs
  induction xs with
  | nil => rfl
  | cons x xs ih =>
    simp only [List.foldl_cons, h1]
    by_cases hp : p x
    · rw [if_pos hp, foldl_keepFirst_some σ h2, List.find?_cons_of_pos _ hp]
      rfl
    · rw [if_neg hp, List.find?_cons_of_neg _ (by simpa using hp), ih]

theorem find?_range_eq_some_iff (p : ℕ → Bool) : ∀ n k : ℕ,
    (List.range n).find? p = some k ↔ k < n ∧ p k = true ∧ ∀ j < k, p j = false := by
  intro n
  induction n with
  | zero => intro k; simp [List.range_zero]
  | succ m ih =>
    intro k
    rw [List.range_succ, List.find?_append]
    cases h : (List.range m).find? p with
    | some a =>
      obtain ⟨ha1, ha2, ha3⟩ := (ih a).mp h
      have hor : (some a).or ((List.find? p [m])) = some a := rfl
      rw [hor]
      constructor
      · intro he
        injection he with he
        subst he
        exact ⟨Nat.lt_succ_of_lt ha1, ha2, ha3⟩
      · rintro ⟨hk1, hk2, hk3⟩
        have hak : ¬ a < k := fun hlt => by rw [hk3 a hlt] at ha2; cases ha2
        have hka : ¬ k < a := fun hlt => by rw [ha3 k hlt] at hk2; cases hk2
        have : a = k := by omega
        rw [this]
    | none =>
      have hnone := List.find?_eq_none.mp h
      rw [Option.none_or]
      by_cases hm : p m
      · rw [List.find?_cons_of_pos _ hm]
        constructor
        · intro he
          injection he with he
          subst he
          refine ⟨Nat.lt_succ_self _, hm, fun j hj => ?_⟩
          have := hnone j (List.mem_range.mpr hj)
          simpa using this
        · rintro ⟨hk1, hk2, hk3⟩
          have : ¬ k < m := fun hlt => by
            have := hnone k (List.mem_range.mpr hlt)
            rw [hk2] at this
            exact this rfl
          have : k = m := by omega
          rw [this]
      · rw [List.find?_cons_of_neg _ hm]
        simp only [List.find?_nil]
        constructor
        · intro he
          cases he
        · rintro ⟨hk1, hk2, hk3⟩
          by_cases hkm : k < m
          · have := hnone k (List.mem_range.mpr hkm)
            rw [hk2] at this
            exact absurd rfl this
          · have : k = m := by omega
            subst this
            exact absurd hk2 hm

theorem lowStep_none_id (ranges : List ℚ) :
    ∀ (xs : List ℕ) (s : Option ℕ), xs.foldl (lowStep ranges none) s = s := by
  intro xs
  induction xs with
  | nil => intro s; rfl
  | cons x xs ih =>
    intro s
    simp only [List.foldl_cons]
    have : lowStep ranges none s x = s := by cases s <;> rfl
    rw [this, ih]

theorem highStep_none_id (ranges : List ℚ) :
    ∀ (xs : List ℕ) (s : Option ℕ), xs.foldl (highStep ranges none) s = s := by
  intro xs
  induction xs with
  | nil => intro s; rfl
  | cons x xs ih =>
    intro s
    simp only [List.foldl_cons]
    have : highStep ranges none s x = s := by cases s <;> rfl
    rw [this, ih]

theorem lowScan_eq_find? (ranges : List ℚ) (l0 : ℚ) (xs : List ℕ) :
    xs.foldl (lowStep ranges (some l0)) none =
      (xs.find? (fun i => decide (l0 ≤ ranges.getD i 0 / 1000))).map (fun i => i) := by
  refine foldl_keepFirst _ _ _ (fun i => ?_) (fun a i => rfl) xs
  simp only [lowStep, decide_eq_true_eq]

theorem highScan_eq_find? (ranges : List ℚ) (h0 : ℚ) (xs : List ℕ) :
    xs.foldl (highStep ranges (some h0)) none =
      (xs.find? (fun i => decide (ranges.getD (ranges.length - 1 - i) 0 / 1000 < h0))).map
        (fun i => ranges.length - i) := by
  refine foldl_keepFirst _ _ _ (fun i => ?_) (fun a i => rfl) xs
  simp only [highStep, decide_eq_true_eq]

theorem sorted_getD_mono (ranges : List ℚ) (hs : ranges.Pairwise (· ≤ ·))
    {i j : ℕ} (hij : i ≤ j) (hj : j < ranges.length) :
    ranges.getD i 0 ≤ ranges.getD j 0 := by
  rcases Nat.lt_or_ge i j with hlt | hge
  · have hi : i < ranges.length := lt_trans hlt hj
    rw [getD_eq_getElem ranges i 0 hi, getD_eq_getElem ranges j 0 hj]
    have := List.pairwise_iff_get.mp hs ⟨i, hi⟩ ⟨j, hj⟩ hlt
    simpa using this
  · have : i = j := by omega
    rw [this]

theorem windowScan_eq (ranges : List ℚ) (lo hi : Option ℚ) :
    windowScan ranges lo hi =
      ((List.range ranges.length).foldl (lowStep ranges lo)
         (if lo.isNone then some 0 else none),
       (List.range ranges.length).foldl (highStep ranges hi)
         (if hi.isNone then some ranges.length else none)) := by
  unfold windowScan
  exact foldl_pair_split (lowStep ranges lo) (highStep ranges hi) _ _ _

theorem pyGetF_map_num (ranges : List ℚ) :
    ∀ i, i < ranges.length → pyGetF (ranges.map FVal.num) i = FVal.num (ranges.getD i 0) := by
  induction ranges with
  | nil => intro i h; simp at h
  | cons x xs ih =>
    intro i h
    cases i with
    | zero => rfl
    | succ j => exact ih j (by simpa using h)

/-- In every case the 2D rows of set_uncorrected_data_rec are the gates
with index in [lowerRangeIndex, upperRangeIndex), ascending, each stored
as its range divided by 1000 (non-NaN here since the raw ranges are
numbers). -/
theorem uncorr_rows_eq (ranges : List ℚ) (l u : ℕ) (hu : u ≤ ranges.length)
    (lg : ℚ → ℚ) (tx : ℚ) (pv dv : List FVal) :
    (set_uncorrected_data_rec lg tx l u (ranges.map FVal.num) pv dv).range =
      (List.range' l (u - l)).map (fun i => Cell.value (ranges.getD i 0 / 1000)) := by
  unfold set_uncorrected_data_rec
  refine List.map_congr_left (fun i hi => ?_)
  obtain ⟨k, hk, rfl⟩ := List.mem_range'.mp hi
  have hiu : l + 1 * k < u := by omega
  have hin : l + 1 * k < ranges.length := lt_of_lt_of_le hiu hu
  rw [pyGetF_map_num ranges _ hin]
  rfl

/-- Characterisation of the first index at or above the lower cutoff, in
a sorted range array. -/
theorem low_found_char (ranges : List ℚ) (hs : ranges.Pairwise (· ≤ ·)) (l0 : ℚ) (l : ℕ)
    (h : (List.range ranges.length).find?
      (fun i => decide (l0 ≤ ranges.getD i 0 / 1000)) = some l) :
    l < ranges.length ∧
      ∀ i, i < ranges.length → (l ≤ i ↔ l0 ≤ ranges.getD i 0 / 1000) := by
  obtain ⟨h1, h2, h3⟩ := (find?_range_eq_some_iff _ _ _).mp h
  rw [decide_eq_true_eq] at h2
  refine ⟨h1, fun i hi => ⟨fun hli => ?_, fun hcond => ?_⟩⟩
  · have hmono := sorted_getD_mono ranges hs hli hi
    have : ranges.getD l 0 / 1000 ≤ ranges.getD i 0 / 1000 :=
      (div_le_div_iff_of_pos_right (by norm_num)).mpr hmono
    linarith
  · by_contra hil
    have hjl : i < l := by omega
    have := h3 i hjl
    rw [decide_eq_false_iff_not] at this
    exact this hcond

theorem low_none_char (ranges : List ℚ) (l0 : ℚ)
    (h : (List.range ranges.length).find?
      (fun i => decide (l0 ≤ ranges.getD i 0 / 1000)) = none) :
    ∀ i, i < ranges.length → ¬ l0 ≤ ranges.getD i 0 / 1000 := by
  intro i hi
  have := List.find?_eq_none.mp h i (List.mem_range.mpr hi)
  rw [decide_eq_true_eq] at this
  exact this

/-- Characterisation of the upper cutoff index found by the top-down
scan, in a sorted range array. -/
theorem high_found_char (ranges : List ℚ) (hs : ranges.Pairwise (· ≤ ·)) (h0 : ℚ) (m : ℕ)
    (h : (List.range ranges.length).find?
      (fun i => decide (ranges.getD (ranges.length - 1 - i) 0 / 1000 < h0)) = some m) :
    m < ranges.length ∧
      ∀ i, i < ranges.length →
        (i < ranges.length - m ↔ ranges.getD i 0 / 1000 < h0) := by
  obtain ⟨h1, h2, h3⟩ := (find?_range_eq_some_iff _ _ _).mp h
  rw [decide_eq_true_eq] at h2
  refine ⟨h1, fun i hi => ⟨fun hiu => ?_, fun hcond => ?_⟩⟩
  · have hle : i ≤ ranges.length - 1 - m := by omega
    have hmono := sorted_getD_mono ranges hs hle (by omega)
    have : ranges.getD i 0 / 1000 ≤ ranges.getD (ranges.length - 1 - m) 0 / 1000 :=
      (div_le_div_iff_of_pos_right (by norm_num)).mpr hmono
    linarith
  · by_contra hiu
    have hj : ranges.length - 1 - i < m := by omega
    have := h3 _ hj
    rw [decide_eq_false_iff_not] at this
    have hidx : ranges.length - 1 - (ranges.length - 1 - i) = i := by omega
    rw [hidx] at this
    exact this hcond

theorem high_none_char (ranges : List ℚ) (h0 : ℚ)
    (h : (List.range ranges.length).find?
      (fun i => decide (ranges.getD (ranges.length - 1 - i) 0 / 1000 < h0)) = none) :
    ∀ i, i < ranges.length → ¬ ranges.getD i 0 / 1000 < h0 := by
  intro i hi
  have hmem : ranges.length - 1 - i ∈ List.range ranges.length := by
    rw [List.mem_range]; omega
  have := List.find?_eq_none.mp h _ hmem
  rw [decide_eq_true_eq] at this
  have hidx : ranges.length - 1 - (ranges.length - 1 - i) = i := by omega
  rw [hidx] at this
  exact this

/-- Wrap-up: the two C2 conclusions follow from a master case fact. -/
theorem window_conclusions (ranges : List ℚ) (lo hi : Option ℚ)
    (hmaster :
      (∃ l u, computeRangeWindow ranges lo hi = .ok (l, u) ∧ l < u ∧ u ≤ ranges.length ∧
        (∀ i, i < ranges.length → ((l ≤ i ∧ i < u) ↔ inCutoffWindow ranges lo hi i))) ∨
      (computeRangeWindow ranges lo hi =
          .error (PyErr.ioError ("No valid ranges found between limits")) ∧
        ∀ i, i < ranges.length → ¬ inCutoffWindow ranges lo hi i)) :
    (∀ l u, computeRangeWindow ranges lo hi = .ok (l, u) →
      l < u ∧ u ≤ ranges.length ∧
      (∀ i, i < ranges.length → ((l ≤ i ∧ i < u) ↔ inCutoffWindow ranges lo hi i)) ∧
      ∀ (lg : ℚ → ℚ) (tx : ℚ) (pv dv : List FVal),
        (set_uncorrected_data_rec lg tx l u (ranges.map FVal.num) pv dv).range =
          (List.range' l (u - l)).map (fun i => Cell.value (ranges.getD i 0 / 1000))) ∧
    ((∃ e, computeRangeWindow ranges lo hi = .error e) ↔
      ∀ i, i < ranges.length → ¬ inCutoffWindow ranges lo hi i) := by
  constructor
  · intro l u hok
    rcases hmaster with ⟨l', u', hok', hlu, hun, hiff⟩ | ⟨herr, -⟩
    · rw [hok] at hok'
      injection hok' with hok'
      obtain ⟨rfl, rfl⟩ : l = l' ∧ u = u' :=
        ⟨congrArg Prod.fst hok', congrArg Prod.snd hok'⟩
      exact ⟨hlu, hun, hiff, fun lg tx pv dv => uncorr_rows_eq ranges l u hun lg tx pv dv⟩
    · rw [herr] at hok
      cases hok
  · rcases hmaster with ⟨l', u', hok', hlu, hun, hiff⟩ | ⟨herr, hnone⟩
    · constructor
      · rintro ⟨e, he⟩
        rw [hok'] at he
        cases he
      · intro hall
        exact absurd ((hiff l' (by omega)).mp ⟨le_refl l', hlu⟩) (hall l' (by omega))
    · exact ⟨fun _ => hnone, fun _ => ⟨_, herr⟩⟩

theorem computeRangeWindow_of_scan_none (ranges : List ℚ) (lo hi : Option ℚ)
    (s2 : Option ℕ) (h : windowScan ranges lo hi = (none, s2)) :
    computeRangeWindow ranges lo hi =
      .error (PyErr.ioError ("No valid ranges found between limits")) := by
  unfold computeRangeWindow
  rw [h]

theorem computeRangeWindow_of_scan_some (ranges : List ℚ) (lo hi : Option ℚ)
    (l : ℕ) (u? : Option ℕ) (h : windowScan ranges lo hi = (some l, u?)) :
    computeRangeWindow ranges lo hi =
      (if (u?.getD ranges.length : ℤ) - (l : ℤ) ≤ 0 then
        .error (PyErr.ioError ("No valid ranges found between limits"))
      else .ok (l, u?.getD ranges.length)) := by
  unfold computeRangeWindow
  rw [h]

theorem C2_range_window_main (ranges : List ℚ) (lo hi : Option ℚ)
    (hs : ranges.Pairwise (· ≤ ·))
    (hhi : ∀ h0 ∈ hi, ∃ i, i < ranges.length ∧ ranges.getD i 0 / 1000 < h0) :
    (∃ l u, computeRangeWindow ranges lo hi = .ok (l, u) ∧ l < u ∧ u ≤ ranges.length ∧
      (∀ i, i < ranges.length → ((l ≤ i ∧ i < u) ↔ inCutoffWindow ranges lo hi i))) ∨
    (computeRangeWindow ranges lo hi =
        .error (PyErr.ioError ("No valid ranges found between limits")) ∧
      ∀ i, i < ranges.length → ¬ inCutoffWindow ranges lo hi i) := by
  rcases lo with _ | l0
  · rcases hi with _ | h0
    · -- no cutoffs at all
      have hws : windowScan ranges none none = (some 0, some ranges.length) := by
        rw [windowScan_eq, lowStep_none_id, highStep_none_id]
        rfl
      have hred := computeRangeWindow_of_scan_some ranges none none 0
        (some ranges.length) hws
      by_cases hn : ranges.length = 0
      · right
        constructor
        · rw [hred, if_pos (by simp only [Option.getD_some]; omega)]
        · intro i hi
          omega
      · left
        refine ⟨0, ranges.length, ?_, by omega, le_refl _, fun i hi => ?_⟩
        · rw [hred, if_neg (by simp only [Option.getD_some]; omega)]
          rfl
        · simp [inCutoffWindow]
          omega
    · -- upper cutoff only
      cases hf : (List.range ranges.length).find?
          (fun i => decide (ranges.getD (ranges.length - 1 - i) 0 / 1000 < h0)) with
      | none =>
        exfalso
        obtain ⟨i, hi, hcond⟩ := hhi h0 (by rfl)
        exact high_none_char ranges h0 hf i hi hcond
      | some m =>
        obtain ⟨hm, hchar⟩ := high_found_char ranges hs h0 m hf
        have hws : windowScan ranges none (some h0) =
            (some 0, some (ranges.length - m)) := by
          rw [windowScan_eq, lowStep_none_id]
          have hinit : (if (some h0).isNone then some ranges.length else none)
              = (none : Option ℕ) := rfl
          rw [hinit, highScan_eq_find? ranges h0, hf]
          rfl
        have hred := computeRangeWindow_of_scan_some ranges none (some h0) 0
          (some (ranges.length - m)) hws
        left
        refine ⟨0, ranges.length - m, ?_, by omega, by omega, fun i hi => ?_⟩
        · rw [hred, if_neg (by simp only [Option.getD_some]; omega)]
          rfl
        · simp only [inCutoffWindow, Option.mem_def, Option.some.injEq]
          constructor
          · rintro ⟨-, hiu⟩
            refine ⟨fun l0' h => absurd h (Option.not_mem_none l0'), ?_⟩
            rintro h0' rfl
            exact (hchar i hi).mp hiu
          · rintro ⟨-, hcond⟩
            exact ⟨by omega, (hchar i hi).mpr (hcond h0 rfl)⟩
  · rcases hi with _ | h0
    · -- lower cutoff only
      cases hf : (List.range ranges.length).find?
          (fun i => decide (l0 ≤ ranges.getD i 0 / 1000)) with
      | none =>
        have hws : windowScan ranges (some l0) none = (none, some ranges.length) := by
          rw [windowScan_eq, highStep_none_id]
          have hinit : (if (some l0).isNone then some 0 else none) = (none : Option ℕ) := rfl
          rw [hinit, lowScan_eq_find? ranges l0, hf]
          rfl
        right
        refine ⟨computeRangeWindow_of_scan_none ranges (some l0) none _ hws, ?_⟩
        intro i hi hwin
        exact low_none_char ranges l0 hf i hi (hwin.1 l0 rfl)
      | some l =>
        obtain ⟨hl, lchar⟩ := low_found_char ranges hs l0 l hf
        have hws : windowScan ranges (some l0) none = (some l, some ranges.length) := by
          rw [windowScan_eq, highStep_none_id]
          have hinit : (if (some l0).isNone then some 0 else none) = (none : Option ℕ) := rfl
          rw [hinit, lowScan_eq_find? ranges l0, hf]
          rfl
        have hred := computeRangeWindow_of_scan_some ranges (some l0) none l
          (some ranges.length) hws
        left
        refine ⟨l, ranges.length, ?_, by omega, le_refl _, fun i hi => ?_⟩
        · rw [hred, if_neg (by simp only [Option.getD_some]; omega)]
          rfl
        · simp only [inCutoffWindow, Option.mem_def, Option.some.injEq]
          constructor
          · rintro ⟨hli, -⟩
            refine ⟨?_, fun h0' h => absurd h (Option.not_mem_none h0')⟩
            rintro l0' rfl
            exact (lchar i hi).mp hli
          · rintro ⟨hcond, -⟩
            exact ⟨(lchar i hi).mpr (hcond l0 rfl), hi⟩
    · -- both cutoffs
      cases hf1 : (List.range ranges.length).find?
          (fun i => decide (l0 ≤ ranges.getD i 0 / 1000)) with
      | none =>
        cases hf2 : (List.range ranges.length).find?
            (fun i => decide (ranges.getD (ranges.length - 1 - i) 0 / 1000 < h0)) with
        | none =>
          exfalso
          obtain ⟨i, hi, hcond⟩ := hhi h0 (by rfl)
          exact high_none_char ranges h0 hf2 i hi hcond
        | some m =>
          have hws : windowScan ranges (some l0) (some h0) =
              (none, some (ranges.length - m)) := by
            rw [windowScan_eq]
            have hinit1 : (if (some l0).isNone then some 0 else none) = (none : Option ℕ) := rfl
            have hinit2 : (if (some h0).isNone then some ranges.length else none)
                = (none : Option ℕ) := rfl
            rw [hinit1, hinit2, lowScan_eq_find? ranges l0, hf1,
              highScan_eq_find? ranges h0, hf2]
            rfl
          right
          refine ⟨computeRangeWindow_of_scan_none ranges (some l0) (some h0) _ hws, ?_⟩
          intro i hi hwin
          exact low_none_char ranges l0 hf1 i hi (hwin.1 l0 rfl)
      | some l =>
        obtain ⟨hl, lchar⟩ := low_found_char ranges hs l0 l hf1
        cases hf2 : (List.range ranges.length).find?
            (fun i => decide (ranges.getD (ranges.length - 1 - i) 0 / 1000 < h0)) with
        | none =>
          exfalso
          obtain ⟨i, hi, hcond⟩ := hhi h0 (by rfl)
          exact high_none_char ranges h0 hf2 i hi hcond
        | some m =>
          obtain ⟨hm, hchar⟩ := high_found_char ranges hs h0 m hf2
          have hws : windowScan ranges (some l0) (some h0) =
              (some l, some (ranges.length - m)) := by
            rw [windowScan_eq]
            have hinit1 : (if (some l0).isNone then some 0 else none) = (none : Option ℕ) := rfl
            have hinit2 : (if (some h0).isNone then some ranges.length else none)
                = (none : Option ℕ) := rfl
            rw [hinit1, hinit2, lowScan_eq_find? ranges l0, hf1,
              highScan_eq_find? ranges h0, hf2]
            rfl
          have hred := computeRangeWindow_of_scan_some ranges (some l0) (some h0) l
            (some (ranges.length - m)) hws
          by_cases hcase : ranges.length - m ≤ l
          · right
            constructor
            · rw [hred, if_pos (by simp only [Option.getD_some]; omega)]
            · intro i hi hwin
              have h1 : l ≤ i := (lchar i hi).mpr (hwin.1 l0 rfl)
              have h2 : i < ranges.length - m := (hchar i hi).mpr (hwin.2 h0 rfl)
              omega
          · left
            refine ⟨l, ranges.length - m, ?_, by omega, by omega, fun i hi => ?_⟩
            · rw [hred, if_neg (by simp only [Option.getD_some]; omega)]
              rfl
            · simp only [inCutoffWindow, Option.mem_def, Option.some.injEq]
              constructor
              · rintro ⟨hli, hiu⟩
                constructor
                · rintro l0' rfl
                  exact (lchar i hi).mp hli
                · rintro h0' rfl
                  exact (hchar i hi).mp hiu
              · rintro ⟨hc1, hc2⟩
                exact ⟨(lchar i hi).mpr (hc1 l0 rfl), (hchar i hi).mpr (hc2 h0 rfl)⟩


/-- C2 counterexample: with the gate array 50..950 km and no lower cutoff
but upper cutoff 40 km (below every gate), the window computation does
NOT raise the configuration error: the top-down scan never fires, the
upper index falls back to numRanges, and the full 19-gate window is
returned — and the record builder then emits all 19 rows, none of which
lies in the claimed half-open window. -/
theorem C2_counterexample :
    computeRangeWindow cexRanges none (some 40) = .ok (0, 19) ∧
    cexRanges.all (fun r => !(decide (r / 1000 < 40))) = true ∧
    ((set_uncorrected_data_rec (fun q => q) 0 0 19 (cexRanges.map FVal.num) []
      []).range).length = 19 := by
  decide

/-- C2 (amended): for a sorted ascending range array, provided the upper
cutoff (when given) lies above at least one gate, the record rows are
exactly the contiguous gates whose range in km lies in the half-open
window [lowerRange, upperRange), in ascending order, and the explicit
IOError is raised exactly when no gate lies in the window.  (When every
gate is at or above the upper cutoff, the code instead silently ignores
the upper cutoff — the counterexample — which is why that hypothesis is
needed.) -/
theorem C2_uncorrected_range_window (ranges : List ℚ) (lo hi : Option ℚ)
    (hs : ranges.Pairwise (· ≤ ·))
    (hhi : ∀ h0 ∈ hi, ∃ i, i < ranges.length ∧ ranges.getD i 0 / 1000 < h0) :
    C2Conclusion ranges lo hi :=
  window_conclusions ranges lo hi (C2_range_window_main ranges lo hi hs hhi)

/-- C2 witness: the scenario of the spec — gates 50..950 km with cutoffs
[100, 900) keep gates 100..850 km (indices 1 to 16), and lowerRange 960
raises the error. -/
theorem C2_uncorrected_range_window_witness :
    (cexRanges.Pairwise (· ≤ ·) ∧
      computeRangeWindow cexRanges (some 100) (some 900) = .ok (1, 17) ∧
      computeRangeWindow cexRanges (some 960) none =
        .error (PyErr.ioError ("No valid ranges found between limits"))) ∧
    C2Conclusion cexRanges (some 100) (some 900) :=
  ⟨⟨by decide, by decide, by decide⟩,
   C2_uncorrected_range_window cexRanges (some 100) (some 900) (by decide)
     (by
       intro h0 hm
       injection hm with hm
       subst hm
       exact ⟨0, by decide, by decide⟩)⟩
